import Mathlib

set_option maxRecDepth 8192

/-!
Shallow embedding of `worker.js` from the `Koyeb_Auto_Login` repository
(a Cloudflare-Worker style scheduled job that logs a list of Koyeb
accounts in and reports the outcomes to a Telegram bot), together with
proofs checking the natural-language specification against the code.

Network effects are shallowly embedded: each function takes the outcome
of the HTTP calls it would perform as an explicit argument (an oracle),
and returns, besides the value the JavaScript function returns, a trace
of the network operations it attempted, so that claims of the form
"performs no network call" are statable.

Strings are Lean `String`s; JavaScript string operations (`slice`,
`startsWith`, `includes`) are modelled character-wise by the `js*`
helpers below.  JavaScript truthiness of an optional string value is
modelled by `String.isEmpty` on a plain string (the empty string stands
for both `""` and `undefined`, which are equally falsy at every use
site in this program).
-/

/-- Model of JavaScript `s.slice(0, n)` (character-wise). -/
def jsSlice (s : String) (n : Nat) : String :=
  String.mk (s.data.take n)

/-- The whitespace characters JavaScript `trim` strips (the common
subset: space, tab, line feed, carriage return). -/
def isWsJs (c : Char) : Bool :=
  c == ' ' || c == '\t' || c == '\n' || c == '\r'

/-- Model of JavaScript `s.trim()`: strip leading and trailing
whitespace. -/
def jsTrim (s : String) : String :=
  String.mk (((s.data.dropWhile isWsJs).reverse.dropWhile isWsJs).reverse)

/-- Predicate `listStarts s p`: whether `p` is a prefix of `s` (character lists). -/
def listStarts : List Char → List Char → Bool
  | _, [] => true
  | [], _ :: _ => false
  | c :: cs, d :: ds => c == d && listStarts cs ds

/-- Model of JavaScript `s.startsWith(p)`. -/
def jsStartsWith (s p : String) : Bool :=
  listStarts s.data p.data

/-- Predicate `listHas s p`: whether `p` occurs contiguously inside `s`. -/
def listHas : List Char → List Char → Bool
  | [], pat => listStarts [] pat
  | c :: rest, pat => listStarts (c :: rest) pat || listHas rest pat

/-- Model of JavaScript `s.includes(p)`. -/
def jsHas (s p : String) : Bool :=
  listHas s.data p.data

/-!
## Notifier: `sendTGMessage` (worker.js lines 1-47)

The oracle supplies the `fetch` outcome of each of the (at most two)
`sendMessage` POSTs: either an HTTP response (`resp`, with `ok` flag,
status and body text) or a rejected promise (`netErr`).
-/

/-- Outcome of one JavaScript `fetch`. -/
inductive FetchRes where
  | resp (ok : Bool) (status : Nat) (text : String)
  | netErr (msg : String)
deriving Repr, DecidableEq

/-- One attempted Telegram `sendMessage` call: whether the payload carried
`parse_mode` set to Markdown, and the message text sent. -/
structure TGCall where
  markdown : Bool
  text : String
deriving Repr, DecidableEq

/-- The inner `sendJson` helper (worker.js lines 11-27): succeeds on an `ok`
response; on a non-`ok` response throws
`HTTP <status>` followed by ` - <first 200 chars of body>` when the body
is non-empty; a rejected `fetch` propagates its own message. -/
def sendJsonResult : FetchRes → Except String Unit
  | .netErr m => .error m
  | .resp ok status text =>
    if ok then .ok ()
    else .error ("HTTP " ++ toString status ++
      (if text.isEmpty then "" else " - " ++ jsSlice text 200))

/-- Function `sendTGMessage` (worker.js lines 1-47).  JavaScript returns `true` on
delivery and `null` both when configuration is missing (lines 5-8) and
when delivery ultimately fails (lines 43-46); we model `true` as `true`
and `null` as `false`.  The second component is the list of attempted
`sendMessage` calls.  `r1` is the oracle outcome for the first
(Markdown) attempt, `r2` for the plain-text retry (consulted only when
the first attempt fails with a message starting with `HTTP 400`,
worker.js line 34). -/
def sendTGMessage (message botToken chatId : String) (r1 r2 : FetchRes) :
    Bool × List TGCall :=
  if botToken.isEmpty || chatId.isEmpty then
    (false, [])
  else
    match sendJsonResult r1 with
    | .ok _ => (true, [⟨true, message⟩])
    | .error e1 =>
      if jsStartsWith e1 "HTTP 400" then
        match sendJsonResult r2 with
        | .ok _ => (true, [⟨true, message⟩, ⟨false, message⟩])
        | .error _ => (false, [⟨true, message⟩, ⟨false, message⟩])
      else
        (false, [⟨true, message⟩])

/-!
## AccountAuthenticator: `loginKoyeb` (worker.js lines 49-119)

The POST outcome oracle covers worker.js lines 95-115: either the race
of the fetch against the 30 s timeout throws (`thrown`, covering
timeouts — message `"请求超时"` — and network errors), or a response
arrives.  For a response the embedding keeps the fields the code
reads: `ok`, `status`, the `content-type` header, the error-body
projections `errorData.message` / `JSON.stringify(errorData)` used on
the JSON branch (line 102), and the raw body text used otherwise.
The preflight GET of the login page (lines 66-77) only contributes a
`Cookie` header and is best-effort; it appears in the network trace but
its outcome cannot change the returned value, so it is not a parameter.
-/

/-- The parts of an HTTP response that `loginKoyeb` reads. -/
structure HttpResponse where
  ok : Bool
  status : Nat
  contentType : Option String
  /-- the `.message` field of the parsed JSON error body, when it is a
  string (JavaScript `errorData.message`); `none` when absent. -/
  jsonMessage : Option String
  /-- the result of `JSON.stringify(errorData)` on the parsed JSON error body. -/
  jsonStringified : String
  text : String
deriving Repr, DecidableEq

/-- Outcome of the login POST (after racing the timeout). -/
inductive PostOutcome where
  | thrown (msg : String)
  | resp (r : HttpResponse)
deriving Repr, DecidableEq

/-- Network operations `loginKoyeb` attempts, in order. -/
inductive NetEv where
  | getLoginPage
  | postLogin
deriving Repr, DecidableEq

/-- Worker.js line 100: the content type is present and includes
`application/json`. -/
def ctJson (r : HttpResponse) : Bool :=
  match r.contentType with
  | none => false
  | some ct => jsHas ct "application/json"

/-- Function `loginKoyeb` (worker.js lines 49-119): returns the `[success, message]`
pair together with the list of attempted network operations. -/
def loginKoyeb (email password : String) (post : PostOutcome) :
    (Bool × String) × List NetEv :=
  if email.isEmpty || password.isEmpty then
    ((false, "邮箱或密码为空"), [])
  else
    let calls := [NetEv.getLoginPage, NetEv.postLogin]
    match post with
    | .thrown m => ((false, m), calls)
    | .resp r =>
      if r.ok then
        ((true, "登录成功"), calls)
      else
        let base := "HTTP状态码 " ++ toString r.status
        let withDiag :=
          if ctJson r then
            base ++ " - " ++
              (match r.jsonMessage with
               | some m => if m.isEmpty then r.jsonStringified else m
               | none => r.jsonStringified)
          else
            let t := jsTrim r.text
            if t.isEmpty then base else base ++ " - " ++ jsSlice t 200
        let msg := if r.status == 403 then withDiag ++ "（可能需要验证码或 Cookie）" else withDiag
        ((false, msg), calls)

/-!
## BatchRunner and entrypoint: `scheduledEventHandler` (worker.js lines 121-189)

The per-account behaviour oracle `beh : Nat → ProcOutcome` gives, for
the account at index `i` of the configured list, what happens inside
the `try` block of worker.js lines 156-171 once the account was found
valid: either `loginKoyeb` resolves to a `[success, message]` pair
(`result`), or the processing throws an unexpected exception with the
given message (`thrown`, caught at line 169).  The run trace records
the 5-second sleeps (line 159) and the login calls (line 162).
-/

/-- One configured account record; `none` models an absent field
(JavaScript `undefined`). -/
structure Account where
  email : Option String
  password : Option String
deriving Repr, DecidableEq

/-- What processing one (valid) account does. -/
inductive ProcOutcome where
  | result (success : Bool) (message : String)
  | thrown (msg : String)
deriving Repr, DecidableEq

/-- Observable events of the batch loop. -/
inductive Ev where
  | delay
  | login (email password : String)
deriving Repr, DecidableEq

/-- Whether an event is the 5-second sleep. -/
def Ev.isDelay : Ev → Bool
  | .delay => true
  | .login _ _ => false

/-- Whether an event is a login call. -/
def Ev.isLogin : Ev → Bool
  | .delay => false
  | .login _ _ => true

/-- Mutable state of the batch loop: the `results` array, the
`successCount` counter (worker.js lines 141, 144) and the event trace. -/
structure RunState where
  results : List String
  successCount : Nat
  trace : List Ev
deriving Repr, DecidableEq

/-- Worker.js line 165. -/
def successLine (email : String) : String :=
  "✅ 账户: " ++ email ++ " 登录成功\n"

/-- Worker.js line 167. -/
def failLine (email message : String) : String :=
  "❌ 账户: " ++ email ++ " 登录失败 - " ++ message ++ "\n"

/-- Worker.js line 170 (the catch branch: `执行异常` = "execution exception"). -/
def excLine (email message : String) : String :=
  "❌ 账户: " ++ email ++ " 登录失败 - 执行异常: " ++ message ++ "\n"

/-- The trimmed email of a record (worker.js line 148,
`account.email?.trim()`), defaulting to `""` when absent. -/
def emailTrim (a : Account) : String :=
  jsTrim (a.email.getD "")

/-- Worker.js line 151: a record passes the `!email || !password` skip
check iff its email is present with non-blank trim and its password is
present and non-empty. -/
def isValid (a : Account) : Bool :=
  match a.email, a.password with
  | some e, some p => !((jsTrim e).isEmpty || p.isEmpty)
  | _, _ => false

/-- The report line the loop body pushes for a valid account at index `i`
under behaviour `beh` (worker.js lines 162-170). -/
def lineOf (i : Nat) (a : Account) (beh : Nat → ProcOutcome) : String :=
  match beh i with
  | .result true _ => successLine (emailTrim a)
  | .result false m => failLine (emailTrim a) m
  | .thrown m => excLine (emailTrim a) m

/-- One iteration of the loop of worker.js lines 146-172 for the account
at index `i`: skip invalid records (lines 151-154); otherwise sleep 5 s
when `index > 0` (lines 158-160), call `loginKoyeb` (line 162) and push
the outcome line, bumping `successCount` on success; an exception from
the body is caught and pushed as an `执行异常` line (lines 169-171). -/
def processAccount (i : Nat) (a : Account) (beh : Nat → ProcOutcome)
    (st : RunState) : RunState :=
  match a.email, a.password with
  | some e0, some p =>
    let email := jsTrim e0
    if email.isEmpty || p.isEmpty then st
    else
      let st1 : RunState :=
        { st with trace := st.trace ++
            (if 0 < i then [Ev.delay] else []) ++ [Ev.login email p] }
      match beh i with
      | .result true _ =>
        { st1 with results := st1.results ++ [successLine email],
                   successCount := st1.successCount + 1 }
      | .result false m =>
        { st1 with results := st1.results ++ [failLine email m] }
      | .thrown m =>
        { st1 with results := st1.results ++ [excLine email m] }
  | _, _ => st

/-- The loop of worker.js lines 146-172, iterating from index `i`. -/
def runFrom (i : Nat) (accounts : List Account) (beh : Nat → ProcOutcome)
    (st : RunState) : RunState :=
  match accounts with
  | [] => st
  | a :: rest => runFrom (i + 1) rest beh (processAccount i a beh st)

/-- The whole batch loop, starting from the empty state. -/
def runLoop (accounts : List Account) (beh : Nat → ProcOutcome) : RunState :=
  runFrom 0 accounts beh ⟨[], 0, []⟩

/-!
### Configuration parsing (worker.js lines 121-139)

`JSON.parse(env.KOYEB_ACCOUNTS)` can yield any JSON value, not only an
array; `validateEnvVariables` never checks the shape.  `JsonVal` keeps
just the distinctions the handler observes: truthiness, the `.length`
property, and the elements iterated by `KOYEB_ACCOUNTS[index]`.
Arrays carry their account records; string indexing yields
one-character strings, which have neither `.email` nor `.password`.
An object is `jobj none` when it has no `length` member (`.length` is
then `undefined`, so the loop guard `index < undefined` is false), and
`jobj (some slots)` when it is array-like: its `length` member is the
number `slots.length` and the keys `"0"`, `"1"`, … up to it hold the
record-like values `slots` — such an object is indexed by the loop
exactly like the array `slots`.  Array-like objects whose `length`
exceeds the present numeric keys make line 148 read `.email` of
`undefined`, a TypeError only the outer handler catches, and objects
with a non-numeric `length` trigger coercion in the loop guard; both
shapes are outside this model, as are array elements that are not
objects.
-/

/-- A parsed JSON value, abstracted to what the handler observes.  An
object is `jobj none` (no `length` member) or `jobj (some slots)`
(array-like: `length` member equal to `slots.length`, keys `"0"`,
`"1"`, … holding `slots`). -/
inductive JsonVal where
  | jnull
  | jbool (b : Bool)
  | jnum (n : Int)
  | jstr (s : String)
  | jarr (accounts : List Account)
  | jobj (indexed : Option (List Account))
deriving Repr, DecidableEq

/-- JavaScript truthiness of a parsed JSON value. -/
def JsonVal.truthy : JsonVal → Bool
  | .jnull => false
  | .jbool b => b
  | .jnum n => n != 0
  | .jstr s => !s.isEmpty
  | .jarr _ => true
  | .jobj _ => true

/-- The `.length` property: array length, string length, the `length`
member of an array-like object, else `undefined`. -/
def JsonVal.lengthProp : JsonVal → Option Nat
  | .jarr accounts => some accounts.length
  | .jstr s => some s.length
  | .jobj (some slots) => some slots.length
  | _ => none

/-- Whether the value is an array. -/
def JsonVal.isArr : JsonVal → Bool
  | .jarr _ => true
  | _ => false

/-- The sequence the loop indexes over: array elements, string
characters, the indexed slots of an array-like object; for values with
no `length` property the loop guard `index < undefined` is false and
no element is read, modelled by `[]`. -/
def JsonVal.elems : JsonVal → List Account
  | .jarr accounts => accounts
  | .jstr s => s.data.map (fun _ => ⟨none, none⟩)
  | .jobj (some slots) => slots
  | _ => []

/-- Function `validateEnvVariables` (worker.js lines 121-131): `raw` is
`env.KOYEB_ACCOUNTS` (`none` = unset; the empty string is falsy and
fails the same check), `parsed` is the outcome of `JSON.parse` on it
(`none` = parse throws). -/
def validateEnvVariables (raw : Option String) (parsed : Option JsonVal) :
    Except String JsonVal :=
  match raw with
  | none => .error "❌ KOYEB_ACCOUNTS 环境变量未设置或格式错误"
  | some s =>
    if s.isEmpty then .error "❌ KOYEB_ACCOUNTS 环境变量未设置或格式错误"
    else
      match parsed with
      | none => .error "❌ KOYEB_ACCOUNTS JSON 格式无效"
      | some v => .ok v

/-- The assembled run report (worker.js lines 141-179), sans the wall-clock
timestamp. -/
structure Report where
  total : Nat
  success : Nat
  failure : Nat
  lines : List String
deriving Repr, DecidableEq

/-- The body of the `try` block of `scheduledEventHandler` (worker.js lines
134-179): propagate a configuration error; throw
`没有找到有效的 Koyeb 账户信息` when the parsed value is falsy or its
`.length` is `=== 0` (lines 137-139); run the loop; throw
`没有任何账户处理结果` when no outcome was produced (lines 174-176);
else build the report, whose failure count is
`totalAccounts - successCount` (line 178). -/
def scheduledCore (envAccounts : Except String JsonVal)
    (beh : Nat → ProcOutcome) : Except String Report :=
  match envAccounts with
  | .error e => .error e
  | .ok v =>
    if !v.truthy || v.lengthProp == some 0 then
      .error "❌ 没有找到有效的 Koyeb 账户信息"
    else
      let totalAccounts := v.lengthProp.getD 0
      let st := runLoop v.elems beh
      if st.results.isEmpty then
        .error "❌ 没有任何账户处理结果"
      else
        .ok { total := totalAccounts, success := st.successCount,
              failure := totalAccounts - st.successCount,
              lines := st.results }

/-- Rendering of the message the handler hands to `sendTGMessage`
(worker.js lines 178-179, 185): the report text on success, the
`程序执行出错` wrapper from the outer catch otherwise. -/
def scheduledMessage (currentTime : String)
    (envAccounts : Except String JsonVal) (beh : Nat → ProcOutcome) : String :=
  match scheduledCore envAccounts beh with
  | .ok r =>
    "🤖 *Koyeb 登录状态报告*\n⏰ *检查时间:* " ++ currentTime ++ "\n\n" ++
    "📊 总计: " ++ toString r.total ++ " 个账户\n✅ 成功: " ++
    toString r.success ++ " | ❌ 失败: " ++ toString r.failure ++ "\n\n" ++
    String.join r.lines
  | .error e => "❌ 程序执行出错: " ++ e

/-!
## Derived definitions used to state and prove the claims
-/

/-- Whether a processing outcome bumps `successCount`. -/
def succOf : ProcOutcome → Bool
  | .result true _ => true
  | .result false _ => false
  | .thrown _ => false

/-- The outcome lines the loop produces from index `i` on (one per valid
record, in order). -/
def linesFrom : Nat → List Account → (Nat → ProcOutcome) → List String
  | _, [], _ => []
  | i, a :: rest, beh =>
    (if isValid a then [lineOf i a beh] else []) ++ linesFrom (i + 1) rest beh

/-- The number of successes the loop counts from index `i` on. -/
def succFrom (beh : Nat → ProcOutcome) : Nat → List Account → Nat
  | _, [] => 0
  | i, a :: rest =>
    (if isValid a && succOf (beh i) then 1 else 0) + succFrom beh (i + 1) rest

/-- The event trace the loop produces from index `i` on.  It does not
take the behaviour oracle: the sleeps and login calls depend only on the
records and their positions. -/
def traceFrom : Nat → List Account → List Ev
  | _, [] => []
  | i, a :: rest =>
    (if isValid a then
      (if 0 < i then [Ev.delay] else []) ++
        [Ev.login (emailTrim a) (a.password.getD "")]
     else []) ++ traceFrom (i + 1) rest

/-- A behaviour oracle on which every login succeeds. -/
def behOK : Nat → ProcOutcome := fun _ => .result true "登录成功"

/-- A behaviour oracle on which the account at index 1 throws and every
other account succeeds. -/
def behABC : Nat → ProcOutcome := fun i =>
  if i == 1 then .thrown "boom" else .result true "登录成功"

/-- A 300-character diagnostic, longer than any 200-character cap. -/
def longDiag : String := String.mk (List.replicate 300 'a')

/-!
## Helper lemmas
-/

theorem listStarts_append (p r : List Char) : listStarts (p ++ r) p = true := by
  induction p with
  | nil => cases r <;> rfl
  | cons c cs ih => simp [listStarts, ih]

theorem jsStartsWith_append (p r : String) : jsStartsWith (p ++ r) p = true := by
  unfold jsStartsWith
  rw [String.data_append]
  exact listStarts_append p.data r.data

theorem listHas_mid (a p b : List Char) : listHas (a ++ (p ++ b)) p = true := by
  induction a with
  | nil =>
    cases p with
    | nil => cases b <;> simp [listHas, listStarts]
    | cons c cs =>
      have h := listStarts_append (c :: cs) b
      simp only [List.nil_append, List.cons_append, listHas, Bool.or_eq_true]
      left
      simpa using h
  | cons x xs ih => simp [listHas, ih]

theorem jsHas_of_eq (s a p b : String) (h : s = a ++ (p ++ b)) :
    jsHas s p = true := by
  subst h
  unfold jsHas
  rw [String.data_append, String.data_append]
  exact listHas_mid a.data p.data b.data

theorem length_jsSlice_le (s : String) (n : Nat) : (jsSlice s n).length ≤ n := by
  show (s.data.take n).length ≤ n
  rw [List.length_take]
  exact Nat.min_le_left _ _

theorem processAccount_eq (i : Nat) (a : Account) (beh : Nat → ProcOutcome)
    (st : RunState) :
    processAccount i a beh st =
      { results := st.results ++ (if isValid a then [lineOf i a beh] else []),
        successCount :=
          st.successCount + (if isValid a && succOf (beh i) then 1 else 0),
        trace := st.trace ++ (if isValid a then
            (if 0 < i then [Ev.delay] else []) ++
              [Ev.login (emailTrim a) (a.password.getD "")]
          else []) } := by
  rcases a with ⟨eo, po⟩
  cases eo with
  | none => simp [processAccount, isValid]
  | some e0 =>
    cases po with
    | none => simp [processAccount, isValid]
    | some p =>
      by_cases h : ((jsTrim e0).isEmpty || p.isEmpty) = true
      · simp [processAccount, isValid, h]
      · cases hb : beh i with
        | result s m =>
          cases s <;>
            simp [processAccount, isValid, h, hb, lineOf, succOf, emailTrim]
        | thrown m =>
          simp [processAccount, isValid, h, hb, lineOf, succOf, emailTrim]

theorem runFrom_eq (accounts : List Account) (beh : Nat → ProcOutcome) :
    ∀ (i : Nat) (st : RunState),
      runFrom i accounts beh st =
        { results := st.results ++ linesFrom i accounts beh,
          successCount := st.successCount + succFrom beh i accounts,
          trace := st.trace ++ traceFrom i accounts } := by
  induction accounts with
  | nil => intro i st; simp [runFrom, linesFrom, succFrom, traceFrom]
  | cons a rest ih =>
    intro i st
    show runFrom (i + 1) rest beh (processAccount i a beh st) = _
    rw [ih (i + 1) (processAccount i a beh st), processAccount_eq]
    simp [linesFrom, succFrom, traceFrom, Nat.add_assoc]

theorem runLoop_eq (accounts : List Account) (beh : Nat → ProcOutcome) :
    runLoop accounts beh =
      { results := linesFrom 0 accounts beh,
        successCount := succFrom beh 0 accounts,
        trace := traceFrom 0 accounts } := by
  show runFrom 0 accounts beh ⟨[], 0, []⟩ = _
  rw [runFrom_eq]
  simp

theorem linesFrom_eq_enum (accounts : List Account) (beh : Nat → ProcOutcome) :
    ∀ i, linesFrom i accounts beh =
      ((List.enumFrom i accounts).filter (fun p => isValid p.2)).map
        (fun p => lineOf p.1 p.2 beh) := by
  induction accounts with
  | nil => intro i; rfl
  | cons a rest ih =>
    intro i
    show (if isValid a then [lineOf i a beh] else []) ++ _ = _
    rw [show List.enumFrom i (a :: rest) = (i, a) :: List.enumFrom (i + 1) rest
      from rfl, List.filter_cons]
    by_cases h : isValid a <;> simp [h, ih (i + 1)]

theorem length_linesFrom (accounts : List Account) (beh : Nat → ProcOutcome) :
    ∀ i, (linesFrom i accounts beh).length = (accounts.filter isValid).length := by
  induction accounts with
  | nil => intro i; rfl
  | cons a rest ih =>
    intro i
    show ((if isValid a then [lineOf i a beh] else []) ++ _).length = _
    rw [List.filter_cons]
    by_cases h : isValid a <;> simp [h, ih (i + 1)]

theorem linesFrom_nil_of_noValid (accounts : List Account)
    (beh : Nat → ProcOutcome) (i : Nat) (h : accounts.filter isValid = []) :
    linesFrom i accounts beh = [] := by
  have hl := length_linesFrom accounts beh i
  rw [h] at hl
  exact List.length_eq_zero.mp hl

theorem linesFrom_append (l1 l2 : List Account) (beh : Nat → ProcOutcome) :
    ∀ i, linesFrom i (l1 ++ l2) beh =
      linesFrom i l1 beh ++ linesFrom (i + l1.length) l2 beh := by
  induction l1 with
  | nil => intro i; simp [linesFrom]
  | cons a rest ih =>
    intro i
    have harith : i + 1 + rest.length = i + (rest.length + 1) := by omega
    simp only [List.cons_append, linesFrom, List.append_eq, ih (i + 1), harith,
      List.length_cons, List.append_assoc]

theorem succFrom_le_length_linesFrom (accounts : List Account)
    (beh : Nat → ProcOutcome) :
    ∀ i, succFrom beh i accounts ≤ (linesFrom i accounts beh).length := by
  induction accounts with
  | nil => intro i; exact Nat.le_refl 0
  | cons a rest ih =>
    intro i
    show (if isValid a && succOf (beh i) then 1 else 0) + _ ≤
      ((if isValid a then [lineOf i a beh] else []) ++ _).length
    have := ih (i + 1)
    by_cases h : isValid a
    · by_cases hs : succOf (beh i) <;> simp [h, hs] <;> omega
    · simp [h]
      omega

theorem succFrom_eq_enum (accounts : List Account) (beh : Nat → ProcOutcome) :
    ∀ i, succFrom beh i accounts =
      ((List.enumFrom i accounts).filter
        (fun p => isValid p.2 && succOf (beh p.1))).length := by
  induction accounts with
  | nil => intro i; rfl
  | cons a rest ih =>
    intro i
    show (if isValid a && succOf (beh i) then 1 else 0) + _ = _
    rw [show List.enumFrom i (a :: rest) = (i, a) :: List.enumFrom (i + 1) rest
      from rfl, List.filter_cons]
    by_cases h : (isValid a && succOf (beh i)) = true <;>
      simp [h, ih (i + 1)] <;> omega

theorem traceFrom_delay_count (accounts : List Account) :
    ∀ i, ((traceFrom i accounts).filter Ev.isDelay).length =
      ((List.enumFrom i accounts).filter
        (fun p => isValid p.2 && decide (0 < p.1))).length := by
  induction accounts with
  | nil => intro i; rfl
  | cons a rest ih =>
    intro i
    rw [show List.enumFrom i (a :: rest) = (i, a) :: List.enumFrom (i + 1) rest
      from rfl, List.filter_cons]
    simp only [traceFrom, List.filter_append, List.length_append]
    by_cases h : isValid a
    · by_cases hi : 0 < i <;> simp [h, hi, Ev.isDelay, ih (i + 1)] <;> omega
    · simp [h, ih (i + 1)]

theorem traceFrom_login_count (accounts : List Account) :
    ∀ i, ((traceFrom i accounts).filter Ev.isLogin).length =
      (accounts.filter isValid).length := by
  induction accounts with
  | nil => intro i; rfl
  | cons a rest ih =>
    intro i
    rw [List.filter_cons]
    simp only [traceFrom, List.filter_append, List.length_append]
    by_cases h : isValid a
    · by_cases hi : 0 < i <;> simp [h, hi, Ev.isLogin, ih (i + 1)] <;> omega
    · simp [h, ih (i + 1)]

theorem scheduledCore_jarr (accounts : List Account) (beh : Nat → ProcOutcome)
    (h : accounts.filter isValid ≠ []) :
    scheduledCore (.ok (.jarr accounts)) beh =
      .ok { total := accounts.length, success := succFrom beh 0 accounts,
            failure := accounts.length - succFrom beh 0 accounts,
            lines := linesFrom 0 accounts beh } := by
  have hlen : accounts.length ≠ 0 := by
    intro h0
    exact h (by rw [List.length_eq_zero.mp h0]; rfl)
  have hlines : linesFrom 0 accounts beh ≠ [] := by
    intro h0
    have hl := length_linesFrom accounts beh 0
    rw [h0] at hl
    exact h (List.length_eq_zero.mp hl.symm)
  have hcond : (!(JsonVal.jarr accounts).truthy ||
      ((JsonVal.jarr accounts).lengthProp == some 0)) = false := by
    simp [JsonVal.truthy, JsonVal.lengthProp, hlen]
  simp only [scheduledCore, hcond, Bool.false_eq_true, if_false,
    JsonVal.elems, JsonVal.lengthProp, Option.getD_some, runLoop_eq]
  have hempty : (linesFrom 0 accounts beh).isEmpty = false := by
    cases hL : linesFrom 0 accounts beh with
    | nil => exact absurd hL hlines
    | cons x xs => rfl
  simp [hempty]
  exact ⟨rfl, fun hnil => h (by rw [hnil]; rfl)⟩

theorem scheduledCore_jarr_noValid (accounts : List Account)
    (beh : Nat → ProcOutcome) (h : accounts.filter isValid = []) :
    ∃ msg, scheduledCore (.ok (.jarr accounts)) beh = .error msg := by
  cases accounts with
  | nil => exact ⟨_, rfl⟩
  | cons a rest =>
    refine ⟨"❌ 没有任何账户处理结果", ?_⟩
    have hlines : linesFrom 0 (a :: rest) beh = [] :=
      linesFrom_nil_of_noValid _ beh 0 h
    have hcond : (!(JsonVal.jarr (a :: rest)).truthy ||
        ((JsonVal.jarr (a :: rest)).lengthProp == some 0)) = false := by
      simp [JsonVal.truthy, JsonVal.lengthProp]
    simp [scheduledCore, hcond, JsonVal.elems, runLoop_eq, hlines]

/-!
## The claims
-/

/-- C8: a call of `loginKoyeb` with an empty email or an empty password
immediately returns `[false, "邮箱或密码为空"]` — the Chinese source
message meaning "email or password empty", which the spec renders as
"credentials empty" — and attempts no network operation at all. -/
theorem C8_login_empty_credentials (email password : String)
    (post : PostOutcome)
    (h : email.isEmpty = true ∨ password.isEmpty = true) :
    loginKoyeb email password post = ((false, "邮箱或密码为空"), []) := by
  rcases h with h | h <;> simp [loginKoyeb, h]

theorem C8_login_empty_credentials_witness :
    loginKoyeb "" "x" (.thrown "t") = ((false, "邮箱或密码为空"), []) ∧
    loginKoyeb "x" "" (.thrown "t") = ((false, "邮箱或密码为空"), []) :=
  ⟨C8_login_empty_credentials "" "x" (.thrown "t") (Or.inl rfl),
   C8_login_empty_credentials "x" "" (.thrown "t") (Or.inr rfl)⟩

/-- C4 counterexample: the claim says `sendTGMessage` returns a tri-state
result distinguishing delivered, skipped and failed.  In the code both
the skipped send (missing bot token, first run below, which indeed makes
no network call) and the failed send (network error on a configured
send, second run) return the same JavaScript value `null` (modelled
`false`): the return value cannot distinguish skipped from failed. -/
theorem C4_notifier_counterexample :
    sendTGMessage "m" "" "chat" (.resp true 200 "") (.resp true 200 "") =
      (false, []) ∧
    (sendTGMessage "m" "tok" "chat" (.netErr "boom") (.resp true 200 "")).1 =
      false ∧
    (sendTGMessage "m" "" "chat" (.resp true 200 "") (.resp true 200 "")).1 =
      (sendTGMessage "m" "tok" "chat" (.netErr "boom") (.resp true 200 "")).1 := by
  decide

/-- C4 (amended): `sendTGMessage` never raises — it is a total function
of its oracle — but its return value is two-valued, not tri-state: it
returns `true` only on delivery and `null` (modelled `false`) both when
the messaging configuration is missing and when delivery fails, the
skipped/failed distinction living only in log output.  When either the
bot token or the chat id is absent it returns immediately with no
network call. -/
theorem C4_notifier_amended (m t c : String) (r1 r2 : FetchRes)
    (m2 t2 c2 e : String) (r3 : FetchRes) :
    (t.isEmpty = true ∨ c.isEmpty = true →
      sendTGMessage m t c r1 r2 = (false, [])) ∧
    (t2.isEmpty = false → c2.isEmpty = false →
      jsStartsWith e "HTTP 400" = false →
      sendTGMessage m2 t2 c2 (.netErr e) r3 = (false, [⟨true, m2⟩])) := by
  constructor
  · intro h
    rcases h with h | h <;> simp [sendTGMessage, h]
  · intro ht hc he
    simp [sendTGMessage, ht, hc, sendJsonResult, he]

theorem C4_notifier_amended_witness :
    sendTGMessage "m" "" "chat" (.resp true 200 "") (.resp true 200 "") =
      (false, []) ∧
    sendTGMessage "m" "tok" "chat" (.netErr "boom") (.resp true 200 "") =
      (false, [⟨true, "m"⟩]) :=
  ⟨(C4_notifier_amended "m" "" "chat" (.resp true 200 "") (.resp true 200 "")
      "m" "tok" "chat" "boom" (.resp true 200 "")).1 (Or.inl rfl),
   (C4_notifier_amended "m" "" "chat" (.resp true 200 "") (.resp true 200 "")
      "m" "tok" "chat" "boom" (.resp true 200 "")).2 rfl rfl (by decide)⟩

/-- C5 counterexample: the claim says every HTTP 4xx-class rejection of
the first attempt triggers one plain-text retry, whose success makes
the send delivered.  A 404 response (a 4xx client error) produces the
thrown message `HTTP 404 - Not Found`, which does not start with
`HTTP 400` (worker.js line 34), so the code performs no retry at all
and reports failure — even though the oracle says the retry would have
succeeded. -/
theorem C5_retry_counterexample :
    sendTGMessage "m" "tok" "chat" (.resp false 404 "Not Found")
      (.resp true 200 "") = (false, [⟨true, "m"⟩]) := by
  decide

/-- C5 (amended): the plain-text retry happens exactly when the first
attempt fails with a message starting with `HTTP 400` — i.e. on HTTP
status 400 itself, not on the whole 4xx class.  On a 400 response there
is exactly one retry, with the Markdown flag stripped, and the send is
delivered iff that retry succeeds; on any failure whose message does
not start with `HTTP 400` (other statuses, network errors) there is no
retry and the send fails. -/
theorem C5_retry_amended (m t c text : String) (r2 : FetchRes)
    (e : String) (r3 : FetchRes) (st0 : Nat) (text0 : String)
    (ht : t.isEmpty = false) (hc : c.isEmpty = false) :
    ((sendTGMessage m t c (.resp false 400 text) r2).2 =
      [⟨true, m⟩, ⟨false, m⟩]) ∧
    (sendJsonResult r2 = .ok () →
      sendTGMessage m t c (.resp false 400 text) r2 =
        (true, [⟨true, m⟩, ⟨false, m⟩])) ∧
    (jsStartsWith e "HTTP 400" = false →
      sendTGMessage m t c (.netErr e) r3 = (false, [⟨true, m⟩])) ∧
    (jsStartsWith ("HTTP " ++ toString st0 ++
        (if text0.isEmpty then "" else " - " ++ jsSlice text0 200))
        "HTTP 400" = false →
      sendTGMessage m t c (.resp false st0 text0) r3 =
        (false, [⟨true, m⟩])) := by
  have h400 : sendJsonResult (.resp false 400 text) =
      .error ("HTTP 400" ++
        (if text.isEmpty then "" else " - " ++ jsSlice text 200)) := rfl
  have hstarts := jsStartsWith_append "HTTP 400"
    (if text.isEmpty then "" else " - " ++ jsSlice text 200)
  refine ⟨?_, ?_, ?_, ?_⟩
  · cases hr2 : sendJsonResult r2 with
    | ok u => simp [sendTGMessage, ht, hc, h400, hstarts, hr2]
    | error e2 => simp [sendTGMessage, ht, hc, h400, hstarts, hr2]
  · intro hok
    simp [sendTGMessage, ht, hc, h400, hstarts, hok]
  · intro he
    simp [sendTGMessage, ht, hc, sendJsonResult, he]
  · intro he0
    simp [sendTGMessage, ht, hc, sendJsonResult, he0]

theorem C5_retry_amended_witness :
    sendTGMessage "m" "tok" "chat" (.resp false 400 "oops")
      (.resp true 200 "") = (true, [⟨true, "m"⟩, ⟨false, "m"⟩]) ∧
    sendTGMessage "m" "tok" "chat" (.netErr "boom") (.resp true 200 "") =
      (false, [⟨true, "m"⟩]) :=
  ⟨(C5_retry_amended "m" "tok" "chat" "oops" (.resp true 200 "") "boom"
      (.resp true 200 "") 500 "x" rfl rfl).2.1 rfl,
   (C5_retry_amended "m" "tok" "chat" "oops" (.resp true 200 "") "boom"
      (.resp true 200 "") 500 "x" rfl rfl).2.2.1 (by decide)⟩

/-- C6 counterexample: the claim says the diagnostic appended on a
non-success HTTP status is capped at roughly 200 characters whether it
comes from a JSON body or from raw text.  On the JSON branch
(worker.js line 102) `errorData.message` is appended with no cap: with
a 300-character JSON `message` the returned failure message is the
14-character prefix `HTTP状态码 500 - ` followed by all 300
characters, exceeding any ~200-character cap. -/
theorem C6_diag_cap_counterexample :
    (loginKoyeb "a@b.c" "p"
        (.resp ⟨false, 500, some "application/json", some longDiag, "", ""⟩)).1.2 =
      "HTTP状态码 500 - " ++ longDiag ∧
    longDiag.length = 300 ∧
    ("HTTP状态码 500 - ").length + 200 <
      ((loginKoyeb "a@b.c" "p"
        (.resp ⟨false, 500, some "application/json", some longDiag, "", ""⟩)).1.2).length := by
  have hlen : longDiag.length = 300 := by
    show (List.replicate 300 'a').length = 300
    simp
  have heq : (loginKoyeb "a@b.c" "p"
      (.resp ⟨false, 500, some "application/json", some longDiag, "", ""⟩)).1.2 =
      "HTTP状态码 500 - " ++ longDiag := rfl
  refine ⟨heq, hlen, ?_⟩
  rw [heq, String.length_append, hlen]
  have hbase : ("HTTP状态码 500 - ").length = 14 := rfl
  omega

/-- C6 (amended): only the raw-text diagnostic is capped: when the
response is not JSON-typed the appended diagnostic is
`text.trim().slice(0, 200)`, so (away from the 403 annotation) the
whole failure message is at most the status prefix plus a separator
plus 200 characters; the JSON-branch diagnostic, by contrast, is
appended uncapped (see the counterexample). -/
theorem C6_diag_cap_amended (email password : String) (r : HttpResponse)
    (he : email.isEmpty = false) (hp : password.isEmpty = false)
    (hok : r.ok = false) (hct : ctJson r = false)
    (h403 : (r.status == 403) = false) :
    ((loginKoyeb email password (.resp r)).1.2).length ≤
      ("HTTP状态码 " ++ toString r.status).length + 3 + 200 := by
  simp only [loginKoyeb, he, hp, hok, hct, h403, Bool.or_self,
    Bool.false_eq_true, if_false]
  by_cases htr : (jsTrim r.text).isEmpty = true
  · simp only [htr, if_true]
    omega
  · simp only [htr, Bool.false_eq_true, if_false]
    rw [String.length_append, String.length_append]
    have hsl := length_jsSlice_le (jsTrim r.text) 200
    have h3 : (" - ").length = 3 := rfl
    omega

theorem C6_diag_cap_amended_witness :
    ((loginKoyeb "a" "b"
        (.resp ⟨false, 500, none, none, "", "hello"⟩)).1.2).length ≤
      ("HTTP状态码 " ++ toString (500 : Nat)).length + 3 + 200 :=
  C6_diag_cap_amended "a" "b" ⟨false, 500, none, none, "", "hello"⟩
    rfl rfl rfl rfl rfl

/-- C1: for every account list containing at least one valid record, the
batch run produces a report whose outcome lines are exactly the lines
of the valid records, one per valid record in input order (the
enumerate-filter-map of the input); invalid records contribute no line,
so the line count equals the number of valid records. -/
theorem C1_lines_one_per_valid (accounts : List Account)
    (beh : Nat → ProcOutcome) (h : accounts.filter isValid ≠ []) :
    ∃ r, scheduledCore (.ok (.jarr accounts)) beh = .ok r ∧
      r.lines = ((List.enumFrom 0 accounts).filter (fun p => isValid p.2)).map
        (fun p => lineOf p.1 p.2 beh) ∧
      r.lines.length = (accounts.filter isValid).length := by
  refine ⟨_, scheduledCore_jarr accounts beh h, ?_, ?_⟩
  · exact linesFrom_eq_enum accounts beh 0
  · exact length_linesFrom accounts beh 0

theorem C1_lines_one_per_valid_witness :
    ∃ r, scheduledCore
        (.ok (.jarr [⟨some "a@b.c", some "pw"⟩, ⟨none, none⟩])) behOK = .ok r ∧
      r.lines = ((List.enumFrom 0
          [(⟨some "a@b.c", some "pw"⟩ : Account), ⟨none, none⟩]).filter
        (fun p => isValid p.2)).map (fun p => lineOf p.1 p.2 behOK) ∧
      r.lines.length = ([(⟨some "a@b.c", some "pw"⟩ : Account),
        ⟨none, none⟩].filter isValid).length :=
  C1_lines_one_per_valid [⟨some "a@b.c", some "pw"⟩, ⟨none, none⟩] behOK
    (by decide)

/-- C3: whenever zero outcomes would be produced the run ends in a fatal
error, not an empty report: an account list with no valid record (empty
or all-invalid) makes `scheduledCore` return an error; an absent
`KOYEB_ACCOUNTS` makes `validateEnvVariables` return an error; and a
configuration error propagates through `scheduledCore` as a fatal
error. -/
theorem C3_zero_outcomes_fatal (accounts : List Account)
    (beh : Nat → ProcOutcome) (p : Option JsonVal) (e : String)
    (h : accounts.filter isValid = []) :
    (∃ msg, scheduledCore (.ok (.jarr accounts)) beh = .error msg) ∧
    (∃ msg, validateEnvVariables none p = .error msg) ∧
    scheduledCore (.error e) beh = .error e :=
  ⟨scheduledCore_jarr_noValid accounts beh h, ⟨_, rfl⟩, rfl⟩

theorem C3_zero_outcomes_fatal_witness :
    (∃ msg, scheduledCore (.ok (.jarr [⟨none, none⟩])) behOK = .error msg) ∧
    (∃ msg, validateEnvVariables none none = .error msg) ∧
    scheduledCore (.error "boom") behOK = .error "boom" :=
  C3_zero_outcomes_fatal [⟨none, none⟩] behOK none "boom" (by decide)

/-- C7 counterexample: the claim says the 5-second delay is inserted
before every login call except the first login call actually made.
With an invalid first record and a valid second record the loop makes
exactly one login call, yet its trace is `[delay, login]`: a delay is
inserted before the first (and only) login call, because the code
gates the sleep on the list index (`index > 0`), not on whether a
previous login happened. -/
theorem C7_delay_counterexample :
    (runLoop [⟨none, none⟩, ⟨some "x", some "y"⟩] behOK).trace =
      [Ev.delay, Ev.login "x" "y"] ∧
    ((runLoop [⟨none, none⟩, ⟨some "x", some "y"⟩] behOK).trace.filter
      Ev.isLogin).length = 1 ∧
    ((runLoop [⟨none, none⟩, ⟨some "x", some "y"⟩] behOK).trace.filter
      Ev.isDelay).length = 1 := by
  decide

/-- C7 (amended): the delay is gated on the position of the account in the
input list, not on earlier logins: the trace is independent of the
behaviour oracle (the delay is unconditional on prior outcomes), the
number of delays equals the number of valid records at index > 0, and
the number of login calls equals the number of valid records — so a
delay precedes the login of every valid record except one at index 0. -/
theorem C7_delay_amended (accounts : List Account)
    (beh beh2 : Nat → ProcOutcome) :
    (runLoop accounts beh).trace = (runLoop accounts beh2).trace ∧
    ((runLoop accounts beh).trace.filter Ev.isDelay).length =
      ((List.enumFrom 0 accounts).filter
        (fun p => isValid p.2 && decide (0 < p.1))).length ∧
    ((runLoop accounts beh).trace.filter Ev.isLogin).length =
      (accounts.filter isValid).length := by
  rw [runLoop_eq accounts beh, runLoop_eq accounts beh2]
  exact ⟨rfl, traceFrom_delay_count accounts 0, traceFrom_login_count accounts 0⟩

/-- C2: an unexpected exception while processing one account becomes a
failure line carrying the `执行异常` ("execution exception") marker for
that account, and the run continues: for any list `pre ++ [b] ++ post`
where `b` is valid and its processing throws, the lines of the report
are the lines of `pre`, then the exception line of `b`, then the lines of
`post`, all in input order — in particular for three valid accounts
`[A succeeds, B throws, C succeeds]` the report has exactly 3 lines in
order A, B, C (see the witness). -/
theorem C2_exception_isolated (pre post : List Account) (b : Account)
    (m : String) (beh : Nat → ProcOutcome) (hb : isValid b = true)
    (hthrow : beh pre.length = .thrown m) :
    ∃ r, scheduledCore (.ok (.jarr (pre ++ b :: post))) beh = .ok r ∧
      r.lines =
        ((List.enumFrom 0 pre).filter (fun p => isValid p.2)).map
          (fun p => lineOf p.1 p.2 beh) ++
        excLine (emailTrim b) m ::
        ((List.enumFrom (pre.length + 1) post).filter
          (fun p => isValid p.2)).map (fun p => lineOf p.1 p.2 beh) ∧
      jsHas (excLine (emailTrim b) m) "执行异常" = true ∧
      r.lines.length =
        (pre.filter isValid).length + 1 + (post.filter isValid).length := by
  have hne : (pre ++ b :: post).filter isValid ≠ [] := by
    intro hcontra
    simp [List.filter_append, List.filter_cons, hb] at hcontra
  refine ⟨_, scheduledCore_jarr _ beh hne, ?_, ?_, ?_⟩
  · show linesFrom 0 (pre ++ b :: post) beh = _
    have h1 : linesFrom 0 (pre ++ b :: post) beh =
        linesFrom 0 pre beh ++ linesFrom pre.length (b :: post) beh := by
      have h0 := linesFrom_append pre (b :: post) beh 0
      simpa using h0
    have h2 : linesFrom pre.length (b :: post) beh =
        excLine (emailTrim b) m :: linesFrom (pre.length + 1) post beh := by
      simp [linesFrom, hb, lineOf, hthrow]
    rw [h1, h2, linesFrom_eq_enum pre beh 0,
      linesFrom_eq_enum post beh (pre.length + 1)]
  · have hsplit : ∀ y : String, (" 登录失败 - 执行异常: " : String) ++ y =
        " 登录失败 - " ++ ("执行异常" ++ (": " ++ y)) := by
      intro y
      rw [← String.append_assoc, ← String.append_assoc]
      have hlit : (" 登录失败 - 执行异常: " : String) =
          " 登录失败 - " ++ "执行异常" ++ ": " := by decide
      rw [← hlit]
    have hdec : excLine (emailTrim b) m =
        ("❌ 账户: " ++ emailTrim b ++ " 登录失败 - ") ++
          ("执行异常" ++ (": " ++ m ++ "\n")) := by
      unfold excLine
      simp only [String.append_assoc]
      rw [hsplit (m ++ "\n")]
    exact jsHas_of_eq _ _ _ _ hdec
  · show (linesFrom 0 (pre ++ b :: post) beh).length = _
    rw [length_linesFrom]
    simp [List.filter_append, List.filter_cons, hb]
    omega

theorem C2_exception_isolated_witness :
    ∃ r, scheduledCore (.ok (.jarr ([⟨some "a@x", some "pw"⟩] ++
        ⟨some "b@x", some "pw"⟩ :: [⟨some "c@x", some "pw"⟩]))) behABC = .ok r ∧
      r.lines =
        ((List.enumFrom 0 [(⟨some "a@x", some "pw"⟩ : Account)]).filter
          (fun p => isValid p.2)).map (fun p => lineOf p.1 p.2 behABC) ++
        excLine (emailTrim ⟨some "b@x", some "pw"⟩) "boom" ::
        ((List.enumFrom ([(⟨some "a@x", some "pw"⟩ : Account)].length + 1)
          [(⟨some "c@x", some "pw"⟩ : Account)]).filter
          (fun p => isValid p.2)).map (fun p => lineOf p.1 p.2 behABC) ∧
      jsHas (excLine (emailTrim ⟨some "b@x", some "pw"⟩) "boom") "执行异常" =
        true ∧
      r.lines.length =
        ([(⟨some "a@x", some "pw"⟩ : Account)].filter isValid).length + 1 +
        ([(⟨some "c@x", some "pw"⟩ : Account)].filter isValid).length :=
  C2_exception_isolated [⟨some "a@x", some "pw"⟩] [⟨some "c@x", some "pw"⟩]
    ⟨some "b@x", some "pw"⟩ "boom" behABC (by decide) (by decide)

/-- C9: the failure count of the report header is `totalAccounts -
successCount` (worker.js line 178) where `totalAccounts` is the number
of input records, not of processed accounts — so the displayed total
counts every input record and each invalid (skipped) record, which
produced no outcome line, is counted as a failure: failure = (outcome
lines that are not successes) + (records skipped as invalid). -/
theorem C9_header_failure_count (accounts : List Account)
    (beh : Nat → ProcOutcome) (r : Report)
    (h : scheduledCore (.ok (.jarr accounts)) beh = .ok r) :
    r.total = accounts.length ∧
    r.failure = accounts.length - r.success ∧
    r.failure = (r.lines.length - r.success) +
      (accounts.length - r.lines.length) := by
  by_cases hv : accounts.filter isValid = []
  · obtain ⟨msg, heq⟩ := scheduledCore_jarr_noValid accounts beh hv
    rw [heq] at h
    exact Except.noConfusion h
  · rw [scheduledCore_jarr accounts beh hv] at h
    injection h with h2
    subst h2
    have h1 := succFrom_le_length_linesFrom accounts beh 0
    have hlen : (linesFrom 0 accounts beh).length ≤ accounts.length := by
      rw [length_linesFrom]
      exact List.length_filter_le _ _
    refine ⟨rfl, rfl, ?_⟩
    show accounts.length - succFrom beh 0 accounts =
      ((linesFrom 0 accounts beh).length - succFrom beh 0 accounts) +
      (accounts.length - (linesFrom 0 accounts beh).length)
    omega

theorem C9_header_failure_count_witness :
    (⟨2, 1, 1, [successLine "a"]⟩ : Report).total =
      ([⟨some "a", some "p"⟩, ⟨none, none⟩] : List Account).length ∧
    (⟨2, 1, 1, [successLine "a"]⟩ : Report).failure =
      ([⟨some "a", some "p"⟩, ⟨none, none⟩] : List Account).length -
        (⟨2, 1, 1, [successLine "a"]⟩ : Report).success ∧
    (⟨2, 1, 1, [successLine "a"]⟩ : Report).failure =
      ((⟨2, 1, 1, [successLine "a"]⟩ : Report).lines.length -
        (⟨2, 1, 1, [successLine "a"]⟩ : Report).success) +
      (([⟨some "a", some "p"⟩, ⟨none, none⟩] : List Account).length -
        (⟨2, 1, 1, [successLine "a"]⟩ : Report).lines.length) :=
  C9_header_failure_count [⟨some "a", some "p"⟩, ⟨none, none⟩] behOK
    ⟨2, 1, 1, [successLine "a"]⟩ rfl

/-- C10 counterexample: the claim quantifies over every non-array JSON
configuration value, but for the valid JSON `null` (not an array)
`validateEnvVariables` accepts it and the run terminates at the entry
check with `没有找到有效的 Koyeb 账户信息` (worker.js line 138) — a
different fatal error than the message of the zero-outcomes check,
`没有任何账户处理结果` (line 175), which the loop never reaches. -/
theorem C10_nonarray_counterexample :
    validateEnvVariables (some "null") (some .jnull) = .ok .jnull ∧
    scheduledCore (.ok .jnull) behOK =
      .error "❌ 没有找到有效的 Koyeb 账户信息" ∧
    "❌ 没有找到有效的 Koyeb 账户信息" ≠ "❌ 没有任何账户处理结果" :=
  ⟨rfl, rfl, by decide⟩

/-- C10 (amended): configuration validation accepts any JSON value
without checking its shape, but which fatal path a non-array value
takes depends on how it looks to the entry check and the loop: a
*truthy* value that passes the `.length === 0` entry check and whose
indexed elements contain no valid record — which covers every plain
object without a `length` member, every non-zero number, `true`, and
every non-empty string — ends with the zero-outcomes fatal error after
a loop that produced nothing; a *falsy* value (`null`, `false`, `0`,
`""`) instead dies at the entry check (see the counterexample); and an
array-like object carrying a numeric `length` member is indexed by the
run exactly like the corresponding array, so it can equally produce a
genuine report or die at either check. -/
theorem C10_nonarray_fatal_amended (v : JsonVal) (beh : Nat → ProcOutcome)
    (s : String) (slots : List Account) (hs : s.isEmpty = false)
    (harr : v.isArr = false) (ht : v.truthy = true)
    (hlen : v.lengthProp ≠ some 0)
    (hval : v.elems.filter isValid = []) :
    validateEnvVariables (some s) (some v) = .ok v ∧
    scheduledCore (.ok v) beh = .error "❌ 没有任何账户处理结果" ∧
    scheduledCore (.ok (.jobj (some slots))) beh =
      scheduledCore (.ok (.jarr slots)) beh := by
  refine ⟨by simp [validateEnvVariables, hs], ?_, ?_⟩
  · cases v with
    | jnull => exact absurd ht (by simp [JsonVal.truthy])
    | jbool bb =>
      cases bb
      · exact absurd ht (by simp [JsonVal.truthy])
      · rfl
    | jnum n =>
      have ht2 : (n != 0) = true := ht
      have hbeqN : ((none : Option Nat) == some 0) = false := rfl
      simp [scheduledCore, JsonVal.truthy, JsonVal.lengthProp, JsonVal.elems,
        ht2, hbeqN, runLoop, runFrom]
    | jstr str =>
      have hstr : str.isEmpty = false := by
        simpa [JsonVal.truthy] using ht
      have hslen : str.length ≠ 0 := by
        intro h0
        exact hlen (by simp [JsonVal.lengthProp, h0])
      have hbeq : (some str.length == some 0) = false := by
        rw [beq_eq_false_iff_ne]
        simp [hslen]
      have hfilrep : ∀ n, (List.replicate n (⟨none, none⟩ : Account)).filter
          isValid = [] := by
        intro n
        induction n with
        | zero => rfl
        | succ k ih => simp [List.replicate, List.filter_cons, isValid, ih]
      have hlinesrep : ∀ n, linesFrom 0
          (List.replicate n (⟨none, none⟩ : Account)) beh = [] := fun n =>
        linesFrom_nil_of_noValid _ beh 0 (hfilrep n)
      simp [scheduledCore, JsonVal.truthy, JsonVal.lengthProp, JsonVal.elems,
        hstr, hbeq, runLoop_eq, hlinesrep]
    | jarr accounts => exact absurd harr (by simp [JsonVal.isArr])
    | jobj idx =>
      cases idx with
      | none => rfl
      | some slots2 =>
        have hlen2 : slots2.length ≠ 0 := by
          intro h0
          exact hlen (by simp [JsonVal.lengthProp, h0])
        have hbeq : (some slots2.length == some 0) = false := by
          rw [beq_eq_false_iff_ne]
          simp [hlen2]
        have hval2 : slots2.filter isValid = [] := by
          simpa [JsonVal.elems] using hval
        have hlines : linesFrom 0 slots2 beh = [] :=
          linesFrom_nil_of_noValid _ beh 0 hval2
        simp [scheduledCore, JsonVal.truthy, JsonVal.lengthProp, JsonVal.elems,
          hbeq, runLoop_eq, hlines]
  · rfl

theorem C10_nonarray_fatal_amended_witness :
    validateEnvVariables (some "42") (some (.jnum 42)) = .ok (.jnum 42) ∧
    scheduledCore (.ok (.jnum 42)) behOK = .error "❌ 没有任何账户处理结果" ∧
    scheduledCore
        (.ok (.jobj (some [⟨some "a@b.c", some "pw"⟩]))) behOK =
      scheduledCore (.ok (.jarr [⟨some "a@b.c", some "pw"⟩])) behOK :=
  C10_nonarray_fatal_amended (.jnum 42) behOK "42"
    [⟨some "a@b.c", some "pw"⟩] rfl rfl rfl (by decide) rfl
